import Mathlib

/-!
Verification of the replication-and-transport core of the
`multiplayer-game_server` repository.

The C++ sources are shallowly embedded:

* `src/engine/include/NetworkEngine.h` / `src/engine/src/NetworkEngine.cpp`:
  the replication registry (`registerReplicatedObject`,
  `unregisterReplicatedObject`, `getReplicatedObjectsSerialized`, `update`).
* `src/engine/include/Replicated.h`: the per-object instance-id logic
  (`initializeInstanceId`, here `initInstanceId`).
* `src/engine/src/TcpNetworkProtocol.cpp`: the message queues (`send`,
  `recieve`) and the writer loop (`processSend`).

`std::unordered_map` values are modelled as association lists in insertion
order (the C++ iteration order of the map is unspecified; the model fixes
insertion order, which is the deterministic choice the spec asks for).
Machine integers (`uint32_t`) are modelled as `Nat` together with the
explicit bound `UINT32_MAX`; the only place overflow could occur,
`nextReplicatedObjectInstanceId_++`, is guarded by the source's own
equality check against the maximum, so no wrap-around arithmetic arises.
C++ exceptions are modelled as `Option RegError` results paired with the
state at throw time (C++ leaves all mutations made before the `throw`
visible, which the model reproduces).
-/

namespace MGServer

/-- Bytes of a serialized buffer (`uint8_t` values). -/
abbrev Byte := Nat

/-- `TypeId` (`std::string_view`), modelled as its byte sequence. -/
abbrev TypeId := List Byte

/-- `InstanceId` (`uint32_t`), modelled as `Nat` with explicit bound. -/
abbrev InstanceId := Nat

/-- `ClientId` (`uint32_t`). -/
abbrev ClientId := Nat

/-- `std::numeric_limits<InstanceId>::max()` for `uint32_t`. -/
def UINT32_MAX : Nat := 4294967295

/-- `uninitializedInstanceID` from `Replicated.h`: the reserved id `0`. -/
def uninitInstanceID : InstanceId := 0

/-- The replication-relevant state of one `IReplicatable` object:
its type id (constant per class, `getTypeId`), its mutable instance id
(`instanceId_`), and the byte sequence its `msgpack_pack` hook appends to
the snapshot buffer (for a `MSGPACK_DEFINE(f1, …, fn)` class this is the
msgpack encoding of the array `[f1, …, fn]`). -/
structure ObjState where
  typeId : TypeId
  instanceId : InstanceId
  payload : List Byte
deriving DecidableEq, Repr

/-- Object handles are C++ pointers, modelled as `Nat`; `0` is `nullptr`. -/
abbrev HandleId := Nat

/-- The heap of objects behind the registered pointers, as an association
list from handle to object state. -/
abbrev Store := List (HandleId × ObjState)

/-- Association-list lookup (first matching key). -/
def alookup {α β : Type} [DecidableEq α] : List (α × β) → α → Option β
  | [], _ => none
  | p :: rest, a => if p.1 = a then some p.2 else alookup rest a

/-- Dereference a handle; the default value is never used on the paths the
claims exercise (a wild non-null pointer is undefined behaviour in C++). -/
def storeGetD (st : Store) (h : HandleId) : ObjState :=
  (alookup st h).getD ⟨[], 0, []⟩

/-- Write back an object's state through its handle. -/
def storeSet : Store → HandleId → ObjState → Store
  | [], h, o => [(h, o)]
  | p :: rest, h, o => if p.1 = h then (h, o) :: rest else p :: storeSet rest h o

/-- `Replicated::initializeInstanceId` (`Replicated.h`, lines 104-110):
sets the id and returns `true` iff the stored id is still
`uninitializedInstanceID`; otherwise returns `false` without mutation. -/
def initInstanceId (o : ObjState) (instanceId : InstanceId) : Bool × ObjState :=
  if o.instanceId = uninitInstanceID then
    (true, { o with instanceId := instanceId })
  else
    (false, o)

/-- The bucket map `replicatedObjects_ :
std::unordered_map<TypeId, std::vector<IReplicatable*>>`, as an association
list in insertion order. -/
abbrev Buckets := List (TypeId × List HandleId)

/-- The bucket of a type, `[]` when absent (a fresh `operator[]` entry is an
empty vector). -/
def getBkt (m : Buckets) (t : TypeId) : List HandleId :=
  (alookup m t).getD []

/-- The map effect of `replicatedObjects_[t]` alone: default-construct an
empty bucket for a missing key, leave the map unchanged otherwise. -/
def ensureKey (m : Buckets) (t : TypeId) : Buckets :=
  match alookup m t with
  | some _ => m
  | none => m ++ [(t, [])]

/-- The combined map effect of `replicatedObjects_[t]` followed by
`objectsOfType.push_back(object)`: append `h` at the end of the bucket of
`t`, creating the bucket if absent. -/
def addToBucket : Buckets → TypeId → HandleId → Buckets
  | [], t, h => [(t, [h])]
  | p :: rest, t, h =>
    if p.1 = t then (t, p.2 ++ [h]) :: rest
    else p :: addToBucket rest t h

/-- `std::erase(vec, h)`: remove every element equal to `h`. -/
def eraseAll : List HandleId → HandleId → List HandleId
  | [], _ => []
  | x :: rest, h => if x = h then eraseAll rest h else x :: eraseAll rest h

/-- The combined map effect of `unregisterReplicatedObject`'s body
(`NetworkEngine.cpp`, lines 51-58): `replicatedObjects_[t]` (creating a
missing bucket), `std::erase(objectsOfType, object)`, and
`replicatedObjects_.erase(t)` when the bucket ended up empty.  A bucket
created by `operator[]` and immediately found empty is erased again, so a
missing key is a net no-op, which the recursion reproduces. -/
def removeFromBuckets : Buckets → TypeId → HandleId → Buckets
  | [], _, _ => []
  | p :: rest, t, h =>
    if p.1 = t then
      (if eraseAll p.2 h = [] then rest else (t, eraseAll p.2 h) :: rest)
    else p :: removeFromBuckets rest t h

/-- All handles registered anywhere in the bucket map. -/
def allHandles : Buckets → List HandleId
  | [] => []
  | p :: rest => p.2 ++ allHandles rest

/-- `Message` from `NetworkProtocol.h`: a client id and an opaque body. -/
structure Message where
  clientId : ClientId
  body : List Byte
deriving DecidableEq, Repr

/-- The state of a `NetworkEngine` (`NetworkEngine.h`, lines 98-103)
together with the heap of objects behind the registered pointers:
`replicatedObjects_`, `nextReplicatedObjectInstanceId_` (initial value `1`),
and `players_` from the tick loop. -/
structure Engine where
  buckets : Buckets
  nextId : InstanceId
  store : Store
  players : List ClientId
deriving DecidableEq, Repr

/-- The distinct registration error kinds, one per `throw` site of
`NetworkEngine::registerReplicatedObject`. -/
inductive RegError
  | nullHandle
  | idExhausted
  | alreadyRegistered
  | alreadyInit
deriving DecidableEq, Repr

/-- `NetworkEngine::registerReplicatedObject` (`NetworkEngine.cpp`, lines
29-49).  The returned state is the registry state when the call returns or
throws; C++ keeps the mutations made before a `throw`, in particular the
`operator[]` bucket creation and the post-increment of
`nextReplicatedObjectInstanceId_` performed while evaluating
`initializeInstanceId(nextReplicatedObjectInstanceId_++)`. -/
def registerReplicatedObject (s : Engine) (h : HandleId) : Engine × Option RegError :=
  if h = 0 then
    (s, some RegError.nullHandle)
  else if s.nextId = UINT32_MAX then
    (s, some RegError.idExhausted)
  else
    let t := (storeGetD s.store h).typeId
    if h ∈ getBkt s.buckets t then
      ({ s with buckets := ensureKey s.buckets t }, some RegError.alreadyRegistered)
    else
      let r := initInstanceId (storeGetD s.store h) s.nextId
      if r.1 then
        ({ s with
            buckets := addToBucket s.buckets t h,
            nextId := s.nextId + 1,
            store := storeSet s.store h r.2 }, none)
      else
        ({ s with
            buckets := ensureKey s.buckets t,
            nextId := s.nextId + 1 }, some RegError.alreadyInit)

/-- `NetworkEngine::unregisterReplicatedObject` (`NetworkEngine.cpp`, lines
51-58). -/
def unregisterReplicatedObject (s : Engine) (h : HandleId) : Engine :=
  { s with buckets := removeFromBuckets s.buckets (storeGetD s.store h).typeId h }

/-! ### The msgpack wire encoding

`getReplicatedObjectsSerialized` delegates to msgpack-c.  The functions
below are the msgpack wire format for the constructs the adaptor at
`NetworkEngine.cpp`, lines 62-87 emits: map headers (`pack_map`), strings
(`pack` of a `std::string_view`), unsigned integers (`pack` of a
`uint32_t`, smallest representation), array headers and booleans (used by
`MSGPACK_DEFINE` object payloads).  The atoms match spec §4.3 and the
expected bytes of `NetworkEngine.test.cpp`. -/

/-- Big-endian 16-bit byte pair. -/
def encBE16 (n : Nat) : List Byte := [n / 256 % 256, n % 256]

/-- Big-endian 32-bit byte quadruple. -/
def encBE32 (n : Nat) : List Byte :=
  [n / 16777216 % 256, n / 65536 % 256, n / 256 % 256, n % 256]

/-- msgpack map header: fixmap / map16 / map32. -/
def packMapHeader (n : Nat) : List Byte :=
  if n < 16 then [0x80 + n]
  else if n < 65536 then 0xde :: encBE16 n
  else 0xdf :: encBE32 n

/-- msgpack string header: fixstr / str8 / str16 / str32. -/
def packStrHeader (n : Nat) : List Byte :=
  if n < 32 then [0xa0 + n]
  else if n < 256 then [0xd9, n]
  else if n < 65536 then 0xda :: encBE16 n
  else 0xdb :: encBE32 n

/-- msgpack array header: fixarray / array16 / array32. -/
def packArrayHeader (n : Nat) : List Byte :=
  if n < 16 then [0x90 + n]
  else if n < 65536 then 0xdc :: encBE16 n
  else 0xdd :: encBE32 n

/-- msgpack of an unsigned integer, smallest representation. -/
def packUint (n : Nat) : List Byte :=
  if n < 128 then [n]
  else if n < 256 then [0xcc, n]
  else if n < 65536 then 0xcd :: encBE16 n
  else 0xce :: encBE32 n

/-- msgpack of a boolean. -/
def packBool (b : Bool) : List Byte := if b then [0xc3] else [0xc2]

/-- The bytes of one bucket's inner map body: for each object, in bucket
order, `o.pack(object->getInstanceId()); o.pack(*object)`. -/
def serializeObjs (st : Store) : List HandleId → List Byte
  | [] => []
  | h :: rest =>
    packUint (storeGetD st h).instanceId ++ (storeGetD st h).payload ++
      serializeObjs st rest

/-- The bytes of the outer map body: for each bucket `o.pack(typeId)`,
`o.pack_map(objects.size())`, then the objects. -/
def serializeBuckets (st : Store) : Buckets → List Byte
  | [] => []
  | p :: rest =>
    packStrHeader p.1.length ++ p.1 ++ packMapHeader p.2.length ++
      serializeObjs st p.2 ++ serializeBuckets st rest

/-- `NetworkEngine::getReplicatedObjectsSerialized` (`NetworkEngine.cpp`,
lines 89-93) through the adaptor at lines 62-87: `pack_map` of the bucket
count, then each bucket.  A null pointer found in a bucket makes the
adaptor throw (`none`). -/
def serializeRegistry (s : Engine) : Option (List Byte) :=
  if 0 ∈ allHandles s.buckets then none
  else
    some (packMapHeader s.buckets.length ++ serializeBuckets s.store s.buckets)

/-! ### The tick loop and the mock transport -/

/-- The mock transport of `NetworkEngine.test.cpp` (`MockNetworkAdaptor`):
`recieve` pops the front of a pre-loaded queue, `send` records the message. -/
structure MockTransport where
  inbox : List Message
  sent : List Message
deriving DecidableEq, Repr

/-- The drain loop of `NetworkEngine::update` (`NetworkEngine.cpp`, lines
17-21): pop messages until `recieve` yields `nullopt`; append each client
id not yet in `players_`. -/
def drainInbox : List Message → List ClientId → List ClientId
  | [], players => players
  | msg :: rest, players =>
    drainInbox rest
      (if msg.clientId ∈ players then players else players ++ [msg.clientId])

/-- `NetworkEngine::update` (`NetworkEngine.cpp`, lines 16-27) against the
mock transport: drain the inbox into `players_`, serialize, then send one
message per player.  The `none` branch models the serializer throwing out
of `update` (nothing is sent; the players mutation is kept). -/
def update (s : Engine) (tp : MockTransport) : Engine × MockTransport :=
  let players' := drainInbox tp.inbox s.players
  match serializeRegistry s with
  | some gameState =>
    ({ s with players := players' },
     { inbox := [],
       sent := tp.sent ++ players'.map (fun c => { clientId := c, body := gameState }) })
  | none =>
    ({ s with players := players' }, { inbox := [], sent := tp.sent })

/-! ### The TCP transport queues and the writer loop -/

/-- The two queues of `TcpNetworkProtocol` (`TcpNetworkProtocol.h`, lines
48-49), front of the `std::queue` at the head. -/
structure TcpQueues where
  incomingMessageQueue : List Message
  outgoingMessageQueue : List Message
deriving DecidableEq, Repr

/-- `TcpNetworkProtocol::send` (`TcpNetworkProtocol.cpp`, lines 84-87):
push onto the outgoing queue, unconditionally. -/
def tcpSend (q : TcpQueues) (message : Message) : TcpQueues :=
  { q with outgoingMessageQueue := q.outgoingMessageQueue ++ [message] }

/-- `TcpNetworkProtocol::recieve` (`TcpNetworkProtocol.cpp`, lines 74-82):
pop the front of the incoming queue, `none` when empty. -/
def tcpRecieve (q : TcpQueues) : Option Message × TcpQueues :=
  match q.incomingMessageQueue with
  | [] => (none, q)
  | m :: rest => (some m, { q with incomingMessageQueue := rest })

/-- A sequence of `send` calls. -/
def applySends (q : TcpQueues) : List Message → TcpQueues
  | [] => q
  | m :: rest => applySends (tcpSend q m) rest

/-- The buffer-pointer argument handed to the stream-send primitive
`SDLNet_TCP_Send(socket, data, len)`.  `vectorData body` is the pointer
`body.data()` to the element bytes; `vectorObject body` is the pointer
`&body` to the `std::vector` object itself (whose first bytes are the
vector's internal pointer fields, not the elements). -/
inductive SendBuf
  | vectorData (body : List Byte)
  | vectorObject (body : List Byte)
deriving DecidableEq, Repr

/-- One pass of the drain in `TcpNetworkProtocol::processSend`
(`TcpNetworkProtocol.cpp`, lines 139-153): for each queued message whose
client has a live socket, hand `(clientId, buffer pointer, length)` to the
stream-send primitive, in queue order.  The source passes `&body` as the
buffer pointer and `body.size()` as the length. -/
def processSendDrain (table : List ClientId) : List Message → List (ClientId × SendBuf × Nat)
  | [] => []
  | m :: rest =>
    if m.clientId ∈ table then
      (m.clientId, SendBuf.vectorObject m.body, m.body.length) :: processSendDrain table rest
    else
      processSendDrain table rest

/-! ### Operation sequences and the registry invariant -/

/-- One registry operation: a `registerReplicatedObject` or an
`unregisterReplicatedObject` call with a given handle. -/
inductive Op
  | reg (h : HandleId)
  | unreg (h : HandleId)
deriving DecidableEq, Repr

/-- Apply one operation; a register failure keeps its thrown error. -/
def applyOp (s : Engine) : Op → Engine × Option RegError
  | Op.reg h => registerReplicatedObject s h
  | Op.unreg h => (unregisterReplicatedObject s h, none)

/-- Apply a sequence of operations from a state, collecting every error
thrown along the way (failed calls leave their state mutations behind,
exactly as the C++ exceptions do). -/
def applyOps : Engine → List Op → Engine × List RegError
  | s, [] => (s, [])
  | s, op :: rest =>
    ((applyOps (applyOp s op).1 rest).1,
     (applyOp s op).2.toList ++ (applyOps (applyOp s op).1 rest).2)

/-- The registry's structural invariant: bucket keys are distinct, every
bucket holds only handles of its own type, every registered handle has a
non-zero instance id strictly below the counter, no handle appears twice,
instance ids are pairwise distinct, and the counter is positive. -/
def Core (s : Engine) : Prop :=
  (s.buckets.map Prod.fst).Nodup ∧
  (∀ p ∈ s.buckets, ∀ x ∈ p.2, (storeGetD s.store x).typeId = p.1) ∧
  (∀ x ∈ allHandles s.buckets, (storeGetD s.store x).instanceId ≠ 0) ∧
  (∀ x ∈ allHandles s.buckets, (storeGetD s.store x).instanceId < s.nextId) ∧
  (allHandles s.buckets).Nodup ∧
  (∀ x ∈ allHandles s.buckets, ∀ y ∈ allHandles s.buckets,
     (storeGetD s.store x).instanceId = (storeGetD s.store y).instanceId →
       x = y) ∧
  0 < s.nextId

/-- No bucket entry with an empty handle vector is retained. -/
def NoEmptyBuckets (m : Buckets) : Prop := ∀ p ∈ m, p.2 ≠ []

/-! ### Concrete states used by the scenario claims -/

/-- The bytes of the ASCII string `"TestObject"`. -/
def testObjectTag : TypeId :=
  [0x54, 0x65, 0x73, 0x74, 0x4f, 0x62, 0x6a, 0x65, 0x63, 0x74]

/-- A fresh registry plus one unregistered `TestObject` (handle `1`) whose
single boolean field is `true`, so that its `MSGPACK_DEFINE(testBool)`
payload is the msgpack array `[true]`. -/
def c2Engine : Engine :=
  { buckets := [],
    nextId := 1,
    store := [(1, { typeId := testObjectTag, instanceId := 0,
                    payload := packArrayHeader 1 ++ packBool true })],
    players := [] }

/-- A fresh registry plus one unregistered object (handle `1`, type byte
`0x41`), used to witness the register characterization. -/
def c1Engine : Engine :=
  { buckets := [],
    nextId := 1,
    store := [(1, { typeId := [0x41], instanceId := 0, payload := [] })],
    players := [] }

/-- A fresh registry plus one handle (`1`) whose object was already
initialized (instance id 5), so that registering it trips the
`AlreadyInitialized` throw. -/
def c3Engine : Engine :=
  { buckets := [],
    nextId := 1,
    store := [(1, { typeId := [0x41], instanceId := 5, payload := [] })],
    players := [] }

/-- A registry whose counter is forced to `max(uint32)`, with one fresh
handle available. -/
def c3MaxEngine : Engine :=
  { buckets := [],
    nextId := UINT32_MAX,
    store := [(1, { typeId := [0x41], instanceId := 0, payload := [] })],
    players := [] }

/-- A fresh engine over an empty registry for the new-client scenario. -/
def c5Engine : Engine :=
  { buckets := [], nextId := 1, store := [], players := [] }

/-- A mock transport pre-loaded with one zero-body message for client 0. -/
def c5Transport : MockTransport :=
  { inbox := [{ clientId := 0, body := [] }], sent := [] }

/-- A fresh engine plus two unregistered objects of the same type (handles
`1` and `2`).  Running `register 1; unregister 1; register 1` from here
leaves a retained empty bucket behind (the third call throws
`AlreadyInitialized` after `operator[]` recreated the bucket). -/
def c7Start : Engine :=
  { buckets := [],
    nextId := 1,
    store := [(1, { typeId := [0x41], instanceId := 0, payload := [] }),
              (2, { typeId := [0x41], instanceId := 0, payload := [] })],
    players := [] }

/-- The reachable state with a retained empty bucket for type `0x41`. -/
def c7State : Engine :=
  (applyOps c7Start [Op.reg 1, Op.unreg 1, Op.reg 1]).1

/-- The claim of C8, as stated: some fixed capacity bounds the outbound
queue in every state reachable by `send` calls. -/
def OutboundBounded : Prop :=
  ∃ cap : Nat, ∀ ms : List Message,
    ((applySends { incomingMessageQueue := [], outgoingMessageQueue := [] } ms).outgoingMessageQueue).length ≤ cap

/-! ### Lemmas on the store and the bucket map -/

/-- Reading back a handle just written. -/
theorem storeGetD_storeSet_self (st : Store) (h : HandleId) (o : ObjState) :
    storeGetD (storeSet st h o) h = o := by
  induction st with
  | nil => simp [storeSet, storeGetD, alookup]
  | cons p rest ih =>
    by_cases hp : p.1 = h
    · simp [storeSet, hp, storeGetD, alookup]
    · simpa [storeSet, hp, storeGetD, alookup] using ih

/-- Writing one handle leaves every other handle's state unchanged. -/
theorem storeGetD_storeSet_ne (st : Store) (h : HandleId) (o : ObjState)
    (h' : HandleId) (hne : h' ≠ h) :
    storeGetD (storeSet st h o) h' = storeGetD st h' := by
  have hne' : h ≠ h' := Ne.symm hne
  induction st with
  | nil => simp [storeSet, storeGetD, alookup, hne']
  | cons p rest ih =>
    by_cases hp : p.1 = h
    · subst hp
      simp [storeSet, storeGetD, alookup, Ne.symm hne]
    · by_cases hp' : p.1 = h'
      · simp [storeSet, hp, storeGetD, alookup, hp', hne', hne]
      · simpa [storeSet, hp, storeGetD, alookup, hp'] using ih

/-- A member of a bucket forces the key to be present. -/
theorem alookup_isSome_of_mem_getBkt {m : Buckets} {t : TypeId} {h : HandleId}
    (hh : h ∈ getBkt m t) : (alookup m t).isSome := by
  unfold getBkt at hh
  cases hal : alookup m t with
  | none => rw [hal] at hh; simp at hh
  | some b => simp

/-- `operator[]` does not change a map that already has the key. -/
theorem ensureKey_of_isSome {m : Buckets} {t : TypeId}
    (hs : (alookup m t).isSome) : ensureKey m t = m := by
  unfold ensureKey
  cases hal : alookup m t with
  | none => rw [hal] at hs; simp at hs
  | some b => rfl

/-- `operator[]` appends an empty bucket for a missing key. -/
theorem ensureKey_of_none {m : Buckets} {t : TypeId}
    (hn : alookup m t = none) : ensureKey m t = m ++ [(t, [])] := by
  unfold ensureKey
  rw [hn]

/-- After `push_back` through `operator[]`, the bucket of the key grew by
`h` at the end. -/
theorem getBkt_addToBucket_self (m : Buckets) (t : TypeId) (h : HandleId) :
    getBkt (addToBucket m t h) t = getBkt m t ++ [h] := by
  induction m with
  | nil => simp [addToBucket, getBkt, alookup]
  | cons p rest ih =>
    by_cases hp : p.1 = t
    · simp [addToBucket, hp, getBkt, alookup]
    · simpa [addToBucket, hp, getBkt, alookup] using ih

/-- After `push_back` through `operator[]`, every other bucket is
unchanged. -/
theorem getBkt_addToBucket_ne (m : Buckets) (t : TypeId) (h : HandleId)
    (t' : TypeId) (hne : t' ≠ t) :
    getBkt (addToBucket m t h) t' = getBkt m t' := by
  have hne' : t ≠ t' := Ne.symm hne
  induction m with
  | nil => simp [addToBucket, getBkt, alookup, hne']
  | cons p rest ih =>
    by_cases hp : p.1 = t
    · subst hp
      simp [addToBucket, getBkt, alookup, Ne.symm hne]
    · by_cases hp' : p.1 = t'
      · simp [addToBucket, hp, getBkt, alookup, hp', hne', hne]
      · simpa [addToBucket, hp, getBkt, alookup, hp'] using ih

/-! ### Structural lemmas for the registry invariant and round trip -/

/-- A lookup misses exactly when the key is absent. -/
theorem alookup_eq_none_iff {α β : Type} [DecidableEq α] {m : List (α × β)}
    {a : α} : alookup m a = none ↔ a ∉ m.map Prod.fst := by
  induction m with
  | nil => simp [alookup]
  | cons p rest ih =>
    by_cases hp : p.1 = a
    · simp [alookup, hp]
    · simp [alookup, hp, ih, Ne.symm hp]

/-- Lookup distributes over append when the key misses the front part. -/
theorem alookup_append_of_none {α β : Type} [DecidableEq α]
    {m₁ m₂ : List (α × β)} {a : α} (h : alookup m₁ a = none) :
    alookup (m₁ ++ m₂) a = alookup m₂ a := by
  induction m₁ with
  | nil => rfl
  | cons p rest ih =>
    by_cases hp : p.1 = a
    · rw [alookup, if_pos hp] at h
      exact absurd h (by simp)
    · rw [alookup, if_neg hp] at h
      show alookup (p :: (rest ++ m₂)) a = alookup m₂ a
      rw [alookup, if_neg hp]
      exact ih h

/-- A hit decomposes the list around the first entry with the key. -/
theorem exists_decomp_of_alookup_some {α β : Type} [DecidableEq α]
    {m : List (α × β)} {a : α} {b : β} (h : alookup m a = some b) :
    ∃ m₁ m₂, m = m₁ ++ (a, b) :: m₂ ∧ alookup m₁ a = none := by
  induction m with
  | nil => simp [alookup] at h
  | cons p rest ih =>
    by_cases hp : p.1 = a
    · refine ⟨[], rest, ?_, rfl⟩
      simp [alookup, hp] at h
      simp [← hp, ← h]
    · simp only [alookup, hp, if_false] at h
      obtain ⟨m₁, m₂, rfl, hm₁⟩ := ih h
      exact ⟨p :: m₁, m₂, rfl, by simp [alookup, hp, hm₁]⟩

/-- In a map whose keys are distinct, every entry is the one its key finds. -/
theorem alookup_of_mem_keysNodup {α β : Type} [DecidableEq α]
    {m : List (α × β)} {p : α × β} (hp : p ∈ m)
    (hk : (m.map Prod.fst).Nodup) : alookup m p.1 = some p.2 := by
  induction m with
  | nil => simp at hp
  | cons q rest ih =>
    rcases List.mem_cons.mp hp with hq | hq
    · subst hq
      simp [alookup]
    · have hne : q.1 ≠ p.1 := by
        intro he
        have : q.1 ∈ rest.map Prod.fst := he ▸ List.mem_map_of_mem Prod.fst hq
        exact (List.nodup_cons.mp hk).1 this
      simp only [alookup, hne, if_false]
      exact ih hq (List.nodup_cons.mp hk).2

/-- Membership in `allHandles` is membership in some bucket. -/
theorem mem_allHandles_iff {m : Buckets} {x : HandleId} :
    x ∈ allHandles m ↔ ∃ p ∈ m, x ∈ p.2 := by
  induction m with
  | nil => simp [allHandles]
  | cons p rest ih => simp [allHandles, ih]

/-- `allHandles` distributes over append. -/
theorem allHandles_append (m₁ m₂ : Buckets) :
    allHandles (m₁ ++ m₂) = allHandles m₁ ++ allHandles m₂ := by
  induction m₁ with
  | nil => simp [allHandles]
  | cons p rest ih => simp [allHandles, ih]

/-- A bucket's members are registered handles. -/
theorem mem_allHandles_of_mem_getBkt {m : Buckets} {t : TypeId} {x : HandleId}
    (hx : x ∈ getBkt m t) : x ∈ allHandles m := by
  unfold getBkt at hx
  cases hal : alookup m t with
  | none => rw [hal] at hx; simp at hx
  | some b =>
    rw [hal] at hx
    simp only [Option.getD_some] at hx
    obtain ⟨m₁, m₂, rfl, _⟩ := exists_decomp_of_alookup_some hal
    rw [allHandles_append]
    simp [allHandles, hx]

/-- `std::erase` yields a sublist. -/
theorem eraseAll_sublist (l : List HandleId) (h : HandleId) :
    List.Sublist (eraseAll l h) l := by
  induction l with
  | nil => simp [eraseAll]
  | cons x rest ih =>
    by_cases hx : x = h
    · simpa [eraseAll, hx] using ih.cons x
    · simpa [eraseAll, hx] using ih.cons₂ x

/-- `std::erase` of an absent element is the identity. -/
theorem eraseAll_of_not_mem {l : List HandleId} {h : HandleId} (hh : h ∉ l) :
    eraseAll l h = l := by
  induction l with
  | nil => rfl
  | cons x rest ih =>
    have hx : x ≠ h := fun he => hh (he ▸ List.mem_cons_self x rest)
    have hrest : h ∉ rest := fun hr => hh (List.mem_cons_of_mem x hr)
    simp [eraseAll, hx, ih hrest]

/-- `std::erase` distributes over append. -/
theorem eraseAll_append (l₁ l₂ : List HandleId) (h : HandleId) :
    eraseAll (l₁ ++ l₂) h = eraseAll l₁ h ++ eraseAll l₂ h := by
  induction l₁ with
  | nil => simp [eraseAll]
  | cons x rest ih =>
    by_cases hx : x = h
    · simp [eraseAll, hx, ih]
    · simp [eraseAll, hx, ih]

/-- Appending a handle to its bucket adds exactly that handle to the
registered handles, up to position. -/
theorem allHandles_addToBucket_perm (m : Buckets) (t : TypeId) (h : HandleId) :
    List.Perm (allHandles (addToBucket m t h)) (h :: allHandles m) := by
  induction m with
  | nil => simp [addToBucket, allHandles]
  | cons p rest ih =>
    by_cases hp : p.1 = t
    · rw [addToBucket, if_pos hp]
      simp only [allHandles]
      have he : (p.2 ++ [h]) ++ allHandles rest = p.2 ++ h :: allHandles rest := by
        simp
      rw [he]
      exact List.perm_middle
    · rw [addToBucket, if_neg hp]
      simp only [allHandles]
      exact (ih.append_left p.2).trans List.perm_middle

/-- A key of the grown map was a key before or is the touched one. -/
theorem mem_keys_addToBucket {m : Buckets} {t : TypeId} {h : HandleId}
    {x : TypeId} (hx : x ∈ (addToBucket m t h).map Prod.fst) :
    x ∈ m.map Prod.fst ∨ x = t := by
  induction m with
  | nil => simpa [addToBucket] using hx
  | cons p rest ih =>
    by_cases hp : p.1 = t
    · rw [addToBucket, if_pos hp] at hx
      simp only [List.map_cons, List.mem_cons] at hx ⊢
      rcases hx with hx | hx
      · exact Or.inr hx
      · exact Or.inl (Or.inr hx)
    · rw [addToBucket, if_neg hp] at hx
      simp only [List.map_cons, List.mem_cons] at hx ⊢
      rcases hx with hx | hx
      · exact Or.inl (Or.inl hx)
      · rcases ih hx with hx' | hx'
        · exact Or.inl (Or.inr hx')
        · exact Or.inr hx'

/-- Key distinctness survives `operator[]` plus `push_back`. -/
theorem keysNodup_addToBucket (m : Buckets) (t : TypeId) (h : HandleId)
    (hk : (m.map Prod.fst).Nodup) :
    ((addToBucket m t h).map Prod.fst).Nodup := by
  induction m with
  | nil => simp [addToBucket]
  | cons p rest ih =>
    rw [List.map_cons, List.nodup_cons] at hk
    by_cases hp : p.1 = t
    · rw [addToBucket, if_pos hp]
      simp only [List.map_cons, List.nodup_cons]
      exact ⟨hp ▸ hk.1, hk.2⟩
    · rw [addToBucket, if_neg hp]
      simp only [List.map_cons, List.nodup_cons]
      refine ⟨?_, ih hk.2⟩
      intro hmem
      rcases mem_keys_addToBucket hmem with hx | hx
      · exact hk.1 hx
      · exact hp hx

/-- Bucket typing survives `operator[]` plus `push_back`, for any typing
function that maps the new handle to the touched key. -/
theorem typed_addToBucket {T : HandleId → TypeId} {m : Buckets} {t : TypeId}
    {h : HandleId} (ht : ∀ p ∈ m, ∀ x ∈ p.2, T x = p.1) (hth : T h = t) :
    ∀ p' ∈ addToBucket m t h, ∀ x ∈ p'.2, T x = p'.1 := by
  induction m with
  | nil =>
    intro p' hp' x hx
    simp only [addToBucket, List.mem_singleton] at hp'
    subst hp'
    simp only [List.mem_singleton] at hx
    subst hx
    exact hth
  | cons p rest ih =>
    intro p' hp' x hx
    by_cases hp : p.1 = t
    · rw [addToBucket, if_pos hp] at hp'
      rcases List.mem_cons.mp hp' with hq | hq
      · subst hq
        simp only [List.mem_append, List.mem_singleton] at hx
        rcases hx with hx | hx
        · exact (ht p (List.mem_cons_self p rest) x hx).trans hp
        · subst hx
          exact hth
      · exact ht p' (List.mem_cons_of_mem p hq) x hx
    · rw [addToBucket, if_neg hp] at hp'
      rcases List.mem_cons.mp hp' with hq | hq
      · subst hq
        exact ht p' (List.mem_cons_self p' rest) x hx
      · exact ih (fun q hq' => ht q (List.mem_cons_of_mem p hq')) p' hq x hx

/-- Bucket non-emptiness survives `operator[]` plus `push_back`. -/
theorem noEmpty_addToBucket {m : Buckets} {t : TypeId} {h : HandleId}
    (hne : ∀ p ∈ m, p.2 ≠ []) :
    ∀ p' ∈ addToBucket m t h, p'.2 ≠ [] := by
  induction m with
  | nil =>
    intro p' hp'
    simp only [addToBucket, List.mem_singleton] at hp'
    subst hp'
    simp
  | cons p rest ih =>
    intro p' hp'
    by_cases hp : p.1 = t
    · rw [addToBucket, if_pos hp] at hp'
      rcases List.mem_cons.mp hp' with hq | hq
      · subst hq; simp
      · exact hne p' (List.mem_cons_of_mem p hq)
    · rw [addToBucket, if_neg hp] at hp'
      rcases List.mem_cons.mp hp' with hq | hq
      · subst hq
        exact hne p' (List.mem_cons_self p' rest)
      · exact ih (fun q hq' => hne q (List.mem_cons_of_mem p hq')) p' hq

/-- Removal only shrinks the registered handles (as a sublist). -/
theorem allHandles_removeFromBuckets_sublist (m : Buckets) (t : TypeId)
    (h : HandleId) :
    List.Sublist (allHandles (removeFromBuckets m t h)) (allHandles m) := by
  induction m with
  | nil => simp [removeFromBuckets]
  | cons p rest ih =>
    by_cases hp : p.1 = t
    · rw [removeFromBuckets, if_pos hp]
      by_cases hb : eraseAll p.2 h = []
      · rw [if_pos hb]
        simp only [allHandles]
        exact List.sublist_append_right p.2 (allHandles rest)
      · rw [if_neg hb]
        simp only [allHandles]
        exact List.Sublist.append (eraseAll_sublist p.2 h) (List.Sublist.refl _)
    · rw [removeFromBuckets, if_neg hp]
      simp only [allHandles]
      exact List.Sublist.append (List.Sublist.refl p.2) ih

/-- Removal only shrinks the key list (as a sublist). -/
theorem keys_removeFromBuckets_sublist (m : Buckets) (t : TypeId)
    (h : HandleId) :
    List.Sublist ((removeFromBuckets m t h).map Prod.fst) (m.map Prod.fst) := by
  induction m with
  | nil => simp [removeFromBuckets]
  | cons p rest ih =>
    by_cases hp : p.1 = t
    · rw [removeFromBuckets, if_pos hp]
      by_cases hb : eraseAll p.2 h = []
      · rw [if_pos hb]
        simp only [List.map_cons]
        exact (List.Sublist.refl _).cons p.1
      · rw [if_neg hb]
        simp only [List.map_cons]
        exact hp ▸ (List.Sublist.refl _).cons₂ t
    · rw [removeFromBuckets, if_neg hp]
      simp only [List.map_cons]
      exact ih.cons₂ p.1

/-- Every bucket left by a removal came from a bucket of the same key, and
kept only members of it. -/
theorem entries_removeFromBuckets {m : Buckets} {t : TypeId} {h : HandleId} :
    ∀ p' ∈ removeFromBuckets m t h,
      ∃ p ∈ m, p'.1 = p.1 ∧ ∀ x ∈ p'.2, x ∈ p.2 := by
  induction m with
  | nil => simp [removeFromBuckets]
  | cons p rest ih =>
    intro p' hp'
    by_cases hp : p.1 = t
    · rw [removeFromBuckets, if_pos hp] at hp'
      by_cases hb : eraseAll p.2 h = []
      · rw [if_pos hb] at hp'
        exact ⟨p', List.mem_cons_of_mem p hp', rfl, fun x hx => hx⟩
      · rw [if_neg hb] at hp'
        rcases List.mem_cons.mp hp' with hq | hq
        · subst hq
          refine ⟨p, List.mem_cons_self p rest, hp.symm, ?_⟩
          intro x hx
          exact (eraseAll_sublist p.2 h).subset hx
        · exact ⟨p', List.mem_cons_of_mem p hq, rfl, fun x hx => hx⟩
    · rw [removeFromBuckets, if_neg hp] at hp'
      rcases List.mem_cons.mp hp' with hq | hq
      · subst hq
        exact ⟨p', List.mem_cons_self p' rest, rfl, fun x hx => hx⟩
      · obtain ⟨q, hq', he, hsub⟩ := ih p' hq
        exact ⟨q, List.mem_cons_of_mem p hq', he, hsub⟩

/-- Bucket non-emptiness survives removal (the emptied bucket is dropped). -/
theorem noEmpty_removeFromBuckets {m : Buckets} {t : TypeId} {h : HandleId}
    (hne : ∀ p ∈ m, p.2 ≠ []) :
    ∀ p' ∈ removeFromBuckets m t h, p'.2 ≠ [] := by
  induction m with
  | nil => simp [removeFromBuckets]
  | cons p rest ih =>
    intro p' hp'
    by_cases hp : p.1 = t
    · rw [removeFromBuckets, if_pos hp] at hp'
      by_cases hb : eraseAll p.2 h = []
      · rw [if_pos hb] at hp'
        exact hne p' (List.mem_cons_of_mem p hp')
      · rw [if_neg hb] at hp'
        rcases List.mem_cons.mp hp' with hq | hq
        · subst hq
          exact hb
        · exact hne p' (List.mem_cons_of_mem p hq)
    · rw [removeFromBuckets, if_neg hp] at hp'
      rcases List.mem_cons.mp hp' with hq | hq
      · subst hq
        exact hne p' (List.mem_cons_self p' rest)
      · exact ih (fun q hq' => hne q (List.mem_cons_of_mem p hq')) p' hq

/-- Removing under a key the map does not have is a no-op. -/
theorem removeFromBuckets_of_none {m : Buckets} {t : TypeId} {h : HandleId}
    (hn : alookup m t = none) : removeFromBuckets m t h = m := by
  induction m with
  | nil => rfl
  | cons p rest ih =>
    by_cases hp : p.1 = t
    · rw [alookup, if_pos hp] at hn
      exact absurd hn (by simp)
    · rw [alookup, if_neg hp] at hn
      rw [removeFromBuckets, if_neg hp, ih hn]

/-- Growing a missing key appends the singleton bucket at the end. -/
theorem addToBucket_of_none {m : Buckets} {t : TypeId} {h : HandleId}
    (hn : alookup m t = none) : addToBucket m t h = m ++ [(t, [h])] := by
  induction m with
  | nil => rfl
  | cons p rest ih =>
    by_cases hp : p.1 = t
    · rw [alookup, if_pos hp] at hn
      exact absurd hn (by simp)
    · rw [alookup, if_neg hp] at hn
      rw [addToBucket, if_neg hp, ih hn]
      rfl

/-- Growing a key found behind a key-free prefix rewrites that entry in
place. -/
theorem addToBucket_decomp_aux {m₁ m₂ : Buckets} {t : TypeId}
    {b : List HandleId} {h : HandleId} (hn : alookup m₁ t = none) :
    addToBucket (m₁ ++ (t, b) :: m₂) t h = m₁ ++ (t, b ++ [h]) :: m₂ := by
  induction m₁ with
  | nil => simp [addToBucket]
  | cons p rest ih =>
    by_cases hp : p.1 = t
    · rw [alookup, if_pos hp] at hn
      exact absurd hn (by simp)
    · rw [alookup, if_neg hp] at hn
      show addToBucket (p :: (rest ++ (t, b) :: m₂)) t h =
        p :: (rest ++ (t, b ++ [h]) :: m₂)
      rw [addToBucket, if_neg hp, ih hn]

/-- Removing under a key found behind a key-free prefix rewrites or drops
that entry in place. -/
theorem removeFromBuckets_decomp_aux {m₁ m₂ : Buckets} {t : TypeId}
    {b : List HandleId} {h : HandleId} (hn : alookup m₁ t = none) :
    removeFromBuckets (m₁ ++ (t, b) :: m₂) t h =
      m₁ ++ (if eraseAll b h = [] then m₂ else (t, eraseAll b h) :: m₂) := by
  induction m₁ with
  | nil => simp [removeFromBuckets]
  | cons p rest ih =>
    by_cases hp : p.1 = t
    · rw [alookup, if_pos hp] at hn
      exact absurd hn (by simp)
    · rw [alookup, if_neg hp] at hn
      show removeFromBuckets (p :: (rest ++ (t, b) :: m₂)) t h =
        p :: (rest ++ if eraseAll b h = [] then m₂ else (t, eraseAll b h) :: m₂)
      rw [removeFromBuckets, if_neg hp, ih hn]

/-- Removing a handle it never contained, from a bucket that is not the
retained-empty pathology, leaves the map unchanged. -/
theorem removeFromBuckets_of_not_mem {m : Buckets} {t : TypeId} {h : HandleId}
    (hno : h ∉ allHandles m) (hnem : alookup m t ≠ some []) :
    removeFromBuckets m t h = m := by
  induction m with
  | nil => rfl
  | cons p rest ih =>
    have hnp : h ∉ p.2 := fun hmem =>
      hno (by simp [allHandles, hmem])
    have hnr : h ∉ allHandles rest := fun hmem =>
      hno (by simp [allHandles, hmem])
    by_cases hp : p.1 = t
    · rw [removeFromBuckets, if_pos hp, eraseAll_of_not_mem hnp]
      have hpne : p.2 ≠ [] := by
        intro he
        exact hnem (by rw [alookup, if_pos hp, he])
      rw [if_neg hpne]
      have : (t, p.2) = p := by
        rw [← hp]
      rw [this]
    · have hnem' : alookup rest t ≠ some [] := by
        rw [alookup, if_neg hp] at hnem
        exact hnem
      rw [removeFromBuckets, if_neg hp, ih hnr hnem']

/-- Registering a fresh handle and then removing it restores the bucket
map exactly, provided the map did not already retain an empty bucket under
the handle's type. -/
theorem removeFromBuckets_addToBucket {m : Buckets} {t : TypeId}
    {h : HandleId} (hno : h ∉ allHandles m) (hnem : alookup m t ≠ some []) :
    removeFromBuckets (addToBucket m t h) t h = m := by
  cases hal : alookup m t with
  | none =>
    rw [addToBucket_of_none hal]
    have hdec := @removeFromBuckets_decomp_aux m [] t [h] h hal
    rw [hdec]
    simp [eraseAll]
  | some b =>
    obtain ⟨m₁, m₂, rfl, hn1⟩ := exists_decomp_of_alookup_some hal
    have hnb : h ∉ b := by
      intro hmem
      refine hno ?_
      rw [allHandles_append]
      simp [allHandles, hmem]
    have hbne : b ≠ [] := fun hbe => hnem (hbe ▸ hal)
    rw [addToBucket_decomp_aux hn1, removeFromBuckets_decomp_aux hn1]
    rw [eraseAll_append, eraseAll_of_not_mem hnb]
    simp [eraseAll, hbne]

/-- Per-object serialization only reads the states of the listed handles. -/
theorem serializeObjs_congr {st st' : Store} {l : List HandleId}
    (hag : ∀ x ∈ l, storeGetD st' x = storeGetD st x) :
    serializeObjs st' l = serializeObjs st l := by
  induction l with
  | nil => rfl
  | cons x rest ih =>
    simp only [serializeObjs]
    rw [hag x (List.mem_cons_self x rest),
      ih (fun y hy => hag y (List.mem_cons_of_mem x hy))]

/-- Bucket serialization only reads the states of the registered handles. -/
theorem serializeBuckets_congr {st st' : Store} {m : Buckets}
    (hag : ∀ x ∈ allHandles m, storeGetD st' x = storeGetD st x) :
    serializeBuckets st' m = serializeBuckets st m := by
  induction m with
  | nil => rfl
  | cons p rest ih =>
    simp only [serializeBuckets]
    rw [serializeObjs_congr (fun x hx => hag x (by simp [allHandles, hx])),
      ih (fun x hx => hag x (by simp [allHandles, hx]))]

/-- Unregistering preserves the structural invariant, never changes the
counter, and preserves bucket non-emptiness. -/
theorem Core_unregister (s : Engine) (h : HandleId) (hc : Core s) :
    Core (unregisterReplicatedObject s h) ∧
    (unregisterReplicatedObject s h).nextId = s.nextId ∧
    (NoEmptyBuckets s.buckets →
       NoEmptyBuckets (unregisterReplicatedObject s h).buckets) := by
  obtain ⟨hk, hty, hpos, hlt, hnd, hinj, hnp⟩ := hc
  have hsub := allHandles_removeFromBuckets_sublist s.buckets
    (storeGetD s.store h).typeId h
  refine ⟨⟨?_, ?_, ?_, ?_, ?_, ?_, hnp⟩, rfl, ?_⟩
  · exact hk.sublist (keys_removeFromBuckets_sublist s.buckets
      (storeGetD s.store h).typeId h)
  · intro p' hp' x hx
    obtain ⟨p, hpm, heq, hsub'⟩ := entries_removeFromBuckets p' hp'
    rw [heq]
    exact hty p hpm x (hsub' x hx)
  · intro x hx
    exact hpos x (hsub.subset hx)
  · intro x hx
    exact hlt x (hsub.subset hx)
  · exact hnd.sublist hsub
  · intro x hx y hy he
    exact hinj x (hsub.subset hx) y (hsub.subset hy) he
  · intro hne p' hp'
    exact noEmpty_removeFromBuckets hne p' hp'

/-- Registering preserves the structural invariant, never decreases the
counter, and — as long as the call does not fail with
`AlreadyInitialized` — preserves bucket non-emptiness. -/
theorem Core_register (s : Engine) (h : HandleId) (hc : Core s) :
    Core (registerReplicatedObject s h).1 ∧
    s.nextId ≤ (registerReplicatedObject s h).1.nextId ∧
    ((registerReplicatedObject s h).2 ≠ some RegError.alreadyInit →
       NoEmptyBuckets s.buckets →
       NoEmptyBuckets (registerReplicatedObject s h).1.buckets) := by
  obtain ⟨hk, hty, hpos, hlt, hnd, hinj, hnp⟩ := hc
  by_cases h0 : h = 0
  · have hr : registerReplicatedObject s h = (s, some RegError.nullHandle) := by
      simp [registerReplicatedObject, h0]
    rw [hr]
    exact ⟨⟨hk, hty, hpos, hlt, hnd, hinj, hnp⟩, le_refl _, fun _ hne => hne⟩
  · by_cases hmax : s.nextId = UINT32_MAX
    · have hr : registerReplicatedObject s h = (s, some RegError.idExhausted) := by
        simp [registerReplicatedObject, h0, hmax]
      rw [hr]
      exact ⟨⟨hk, hty, hpos, hlt, hnd, hinj, hnp⟩, le_refl _, fun _ hne => hne⟩
    · by_cases hmem : h ∈ getBkt s.buckets (storeGetD s.store h).typeId
      · have hkey := ensureKey_of_isSome (alookup_isSome_of_mem_getBkt hmem)
        have hr : registerReplicatedObject s h =
            (s, some RegError.alreadyRegistered) := by
          simp [registerReplicatedObject, h0, hmax, hmem, hkey]
        rw [hr]
        exact ⟨⟨hk, hty, hpos, hlt, hnd, hinj, hnp⟩, le_refl _, fun _ hne => hne⟩
      · by_cases hin : (storeGetD s.store h).instanceId = uninitInstanceID
        · -- success: the handle is fresh, appended, and freshly tagged
          have hr : registerReplicatedObject s h =
              ({ s with
                  buckets := addToBucket s.buckets
                    (storeGetD s.store h).typeId h,
                  nextId := s.nextId + 1,
                  store := storeSet s.store h
                    { storeGetD s.store h with instanceId := s.nextId } },
               none) := by
            simp [registerReplicatedObject, h0, hmax, hmem, initInstanceId, hin]
          have hfresh : h ∉ allHandles s.buckets := by
            intro hmem'
            obtain ⟨p, hpm, hxp⟩ := mem_allHandles_iff.mp hmem'
            have hth : (storeGetD s.store h).typeId = p.1 := hty p hpm h hxp
            apply hmem
            unfold getBkt
            rw [hth, alookup_of_mem_keysNodup hpm hk]
            simpa using hxp
          have hperm := allHandles_addToBucket_perm s.buckets
            (storeGetD s.store h).typeId h
          have hmem_iff : ∀ x, x ∈ allHandles
              (addToBucket s.buckets (storeGetD s.store h).typeId h) ↔
              x = h ∨ x ∈ allHandles s.buckets := by
            intro x
            rw [hperm.mem_iff]
            simp
          have hsh : storeGetD
              (storeSet s.store h
                { storeGetD s.store h with instanceId := s.nextId }) h =
              { storeGetD s.store h with instanceId := s.nextId } :=
            storeGetD_storeSet_self _ _ _
          have hsne : ∀ x, x ≠ h → storeGetD
              (storeSet s.store h
                { storeGetD s.store h with instanceId := s.nextId }) x =
              storeGetD s.store x := fun x hx =>
            storeGetD_storeSet_ne _ _ _ _ hx
          rw [hr]
          refine ⟨⟨?_, ?_, ?_, ?_, ?_, ?_, ?_⟩, ?_, ?_⟩
          · exact keysNodup_addToBucket _ _ _ hk
          · refine typed_addToBucket ?_ ?_
            · intro p hpm x hx
              have hxh : x ≠ h := by
                intro he
                exact hfresh (he ▸ mem_allHandles_iff.mpr ⟨p, hpm, hx⟩)
              rw [hsne x hxh]
              exact hty p hpm x hx
            · rw [hsh]
          · intro x hx
            rcases (hmem_iff x).mp hx with he | hold
            · subst he
              rw [hsh]
              have hnz : s.nextId ≠ 0 := Nat.pos_iff_ne_zero.mp hnp
              simpa using hnz
            · have hxh : x ≠ h := fun he => hfresh (he ▸ hold)
              rw [hsne x hxh]
              exact hpos x hold
          · intro x hx
            rcases (hmem_iff x).mp hx with he | hold
            · subst he
              rw [hsh]
              exact Nat.lt_succ_self s.nextId
            · have hxh : x ≠ h := fun he => hfresh (he ▸ hold)
              rw [hsne x hxh]
              exact Nat.lt_succ_of_lt (hlt x hold)
          · exact hperm.nodup_iff.mpr (List.nodup_cons.mpr ⟨hfresh, hnd⟩)
          · intro x hx y hy he
            rcases (hmem_iff x).mp hx with hex | holdx <;>
              rcases (hmem_iff y).mp hy with hey | holdy
            · rw [hex, hey]
            · exfalso
              have hyh : y ≠ h := fun he' => hfresh (he' ▸ holdy)
              rw [hex, hsh, hsne y hyh] at he
              exact Nat.lt_irrefl _ (he ▸ hlt y holdy)
            · exfalso
              have hxh : x ≠ h := fun he' => hfresh (he' ▸ holdx)
              rw [hey, hsh, hsne x hxh] at he
              exact Nat.lt_irrefl _ (he ▸ hlt x holdx)
            · have hxh : x ≠ h := fun he' => hfresh (he' ▸ holdx)
              have hyh : y ≠ h := fun he' => hfresh (he' ▸ holdy)
              rw [hsne x hxh, hsne y hyh] at he
              exact hinj x holdx y holdy he
          · exact Nat.succ_pos s.nextId
          · exact Nat.le_succ s.nextId
          · intro _ hne p' hp'
            exact noEmpty_addToBucket hne p' hp'
        · -- AlreadyInitialized: the counter moves and a bucket may appear
          have hr : registerReplicatedObject s h =
              ({ s with
                  buckets := ensureKey s.buckets (storeGetD s.store h).typeId,
                  nextId := s.nextId + 1 },
               some RegError.alreadyInit) := by
            simp [registerReplicatedObject, h0, hmax, hmem, initInstanceId, hin]
          rw [hr]
          refine ⟨?_, Nat.le_succ s.nextId, ?_⟩
          · cases halo : alookup s.buckets (storeGetD s.store h).typeId with
            | some b =>
              have hkey : ensureKey s.buckets (storeGetD s.store h).typeId =
                  s.buckets := ensureKey_of_isSome (by rw [halo]; simp)
              rw [hkey]
              exact ⟨hk, hty, hpos,
                fun x hx => Nat.lt_succ_of_lt (hlt x hx), hnd, hinj,
                Nat.succ_pos s.nextId⟩
            | none =>
              have hkey := ensureKey_of_none halo
              rw [hkey]
              have hAH : allHandles
                  (s.buckets ++ [((storeGetD s.store h).typeId, [])]) =
                  allHandles s.buckets := by
                rw [allHandles_append]
                simp [allHandles]
              refine ⟨?_, ?_, ?_, ?_, ?_, ?_, Nat.succ_pos s.nextId⟩
              · rw [List.map_append]
                simp only [List.map_cons, List.map_nil]
                rw [List.nodup_append]
                refine ⟨hk, List.nodup_singleton _, ?_⟩
                intro a ha hb
                simp only [List.mem_singleton] at hb
                subst hb
                exact alookup_eq_none_iff.mp halo ha
              · intro p' hp' x hx
                rcases List.mem_append.mp hp' with hq | hq
                · exact hty p' hq x hx
                · simp only [List.mem_singleton] at hq
                  subst hq
                  simp at hx
              · intro x hx
                rw [hAH] at hx
                exact hpos x hx
              · intro x hx
                rw [hAH] at hx
                exact Nat.lt_succ_of_lt (hlt x hx)
              · rw [hAH]
                exact hnd
              · intro x hx y hy he
                rw [hAH] at hx hy
                exact hinj x hx y hy he
          · intro herr
            exact absurd rfl herr

/-- The structural invariant is preserved by every operation sequence;
the counter never decreases; and bucket non-emptiness is preserved as long
as no register call failed with `AlreadyInitialized`. -/
theorem applyOps_inv (ops : List Op) (s : Engine) (hc : Core s) :
    Core (applyOps s ops).1 ∧
    s.nextId ≤ (applyOps s ops).1.nextId ∧
    (RegError.alreadyInit ∉ (applyOps s ops).2 →
       NoEmptyBuckets s.buckets → NoEmptyBuckets (applyOps s ops).1.buckets) := by
  induction ops generalizing s with
  | nil => exact ⟨hc, le_refl _, fun _ hne => hne⟩
  | cons op rest ih =>
    cases op with
    | reg h =>
      obtain ⟨hc1, hle1, hne1⟩ := Core_register s h hc
      obtain ⟨hc2, hle2, hne2⟩ := ih _ hc1
      refine ⟨hc2, le_trans hle1 hle2, ?_⟩
      intro herr hne
      simp only [applyOps, applyOp, List.mem_append] at herr
      apply hne2
      · intro hmem
        exact herr (Or.inr hmem)
      · apply hne1 ?_ hne
        intro he
        exact herr (Or.inl (by simp [he]))
    | unreg h =>
      obtain ⟨hc1, heq1, hne1⟩ := Core_unregister s h hc
      obtain ⟨hc2, hle2, hne2⟩ := ih _ hc1
      refine ⟨hc2, le_trans (le_of_eq heq1.symm) hle2, ?_⟩
      intro herr hne
      simp only [applyOps, applyOp, Option.toList, List.nil_append] at herr
      exact hne2 herr (hne1 hne)

/-! ### Lemmas on the tick loop's drain -/

/-- A client id is in the drained player set iff it was known before or
appeared in some buffered message. -/
theorem mem_drainInbox (inbox : List Message) (players : List ClientId)
    (c : ClientId) :
    c ∈ drainInbox inbox players ↔
      c ∈ players ∨ c ∈ inbox.map Message.clientId := by
  induction inbox generalizing players with
  | nil => simp [drainInbox]
  | cons m rest ih =>
    simp only [drainInbox, List.map_cons, List.mem_cons]
    by_cases hm : m.clientId ∈ players
    · rw [if_pos hm, ih]
      have hbr : c = m.clientId → c ∈ players := fun he => he.symm ▸ hm
      tauto
    · rw [if_neg hm, ih]
      simp only [List.mem_append, List.mem_singleton]
      tauto

/-- Draining never introduces a duplicate client id. -/
theorem nodup_drainInbox (inbox : List Message) (players : List ClientId)
    (hnd : players.Nodup) : (drainInbox inbox players).Nodup := by
  induction inbox generalizing players with
  | nil => simpa [drainInbox] using hnd
  | cons m rest ih =>
    simp only [drainInbox]
    by_cases hm : m.clientId ∈ players
    · rw [if_pos hm]
      exact ih players hnd
    · rw [if_neg hm]
      refine ih _ ?_
      simp [List.nodup_append, hnd, hm]

/-- Draining only appends: the previous player set is kept, in order, as a
prefix. -/
theorem drainInbox_eq_append (inbox : List Message) (players : List ClientId) :
    ∃ suffix, drainInbox inbox players = players ++ suffix := by
  induction inbox generalizing players with
  | nil => exact ⟨[], by simp [drainInbox]⟩
  | cons m rest ih =>
    simp only [drainInbox]
    by_cases hm : m.clientId ∈ players
    · rw [if_pos hm]
      exact ih players
    · rw [if_neg hm]
      obtain ⟨suf, hsuf⟩ := ih (players ++ [m.clientId])
      exact ⟨m.clientId :: suf, by simp [hsuf]⟩

/-- Unfolding one `update` call when serialization succeeds. -/
theorem update_eq (s : Engine) (tp : MockTransport) (gs : List Byte)
    (hser : serializeRegistry s = some gs) :
    update s tp =
      ({ s with players := drainInbox tp.inbox s.players },
       { inbox := [],
         sent := tp.sent ++ (drainInbox tp.inbox s.players).map
           (fun c => { clientId := c, body := gs }) }) := by
  simp [update, hser]

/-! ### Small auxiliary lemmas on the transport queues -/

/-- `applySends` only appends to the outgoing queue, in call order. -/
theorem applySends_outgoing (q : TcpQueues) (ms : List Message) :
    (applySends q ms).outgoingMessageQueue = q.outgoingMessageQueue ++ ms := by
  induction ms generalizing q with
  | nil => simp [applySends]
  | cons m rest ih => simp [applySends, tcpSend, ih]

/-- `applySends` leaves the incoming queue untouched. -/
theorem applySends_incoming (q : TcpQueues) (ms : List Message) :
    (applySends q ms).incomingMessageQueue = q.incomingMessageQueue := by
  induction ms generalizing q with
  | nil => simp [applySends]
  | cons m rest ih => simp [applySends, tcpSend, ih]

/-! ### Claim theorems -/

/-- C1: `registerReplicatedObject(h)` fails with `NullHandle` exactly when
`h` is null; with `IdExhausted` exactly when (not null and) the counter
equals the maximal `uint32`; with `AlreadyRegistered` exactly when
(counter not exhausted and) `h` is already in the bucket of its type; with
`AlreadyInitialized` exactly when (`h` absent from the bucket and)
`h.initializeInstanceId` returns false, i.e. `h`'s stored id is already
non-zero; and it succeeds in exactly the remaining case, assigning the
current `nextInstanceTag` to `h`, incrementing the counter by one, and
appending `h` at the end of its type's bucket while leaving every other
bucket, every other object, and the player list unchanged.  Every failure
is reported as its distinct error kind; none is swallowed. -/
theorem C1_register_characterization (s : Engine) (h : HandleId) :
    ((registerReplicatedObject s h).2 = some RegError.nullHandle ↔ h = 0) ∧
    ((registerReplicatedObject s h).2 = some RegError.idExhausted ↔
       h ≠ 0 ∧ s.nextId = UINT32_MAX) ∧
    ((registerReplicatedObject s h).2 = some RegError.alreadyRegistered ↔
       h ≠ 0 ∧ s.nextId ≠ UINT32_MAX ∧
       h ∈ getBkt s.buckets (storeGetD s.store h).typeId) ∧
    ((registerReplicatedObject s h).2 = some RegError.alreadyInit ↔
       h ≠ 0 ∧ s.nextId ≠ UINT32_MAX ∧
       h ∉ getBkt s.buckets (storeGetD s.store h).typeId ∧
       (storeGetD s.store h).instanceId ≠ uninitInstanceID) ∧
    ((registerReplicatedObject s h).2 = none ↔
       h ≠ 0 ∧ s.nextId ≠ UINT32_MAX ∧
       h ∉ getBkt s.buckets (storeGetD s.store h).typeId ∧
       (storeGetD s.store h).instanceId = uninitInstanceID) ∧
    ((registerReplicatedObject s h).2 = none →
       getBkt (registerReplicatedObject s h).1.buckets
           (storeGetD s.store h).typeId =
         getBkt s.buckets (storeGetD s.store h).typeId ++ [h] ∧
       (∀ t', t' ≠ (storeGetD s.store h).typeId →
          getBkt (registerReplicatedObject s h).1.buckets t' =
            getBkt s.buckets t') ∧
       (registerReplicatedObject s h).1.nextId = s.nextId + 1 ∧
       storeGetD (registerReplicatedObject s h).1.store h =
         { storeGetD s.store h with instanceId := s.nextId } ∧
       (∀ h', h' ≠ h →
          storeGetD (registerReplicatedObject s h).1.store h' =
            storeGetD s.store h') ∧
       (registerReplicatedObject s h).1.players = s.players) := by
  by_cases h0 : h = 0
  · simp [registerReplicatedObject, h0]
  · by_cases hmax : s.nextId = UINT32_MAX
    · simp [registerReplicatedObject, h0, hmax]
    · by_cases hmem : h ∈ getBkt s.buckets (storeGetD s.store h).typeId
      · simp [registerReplicatedObject, h0, hmax, hmem]
      · by_cases hin : (storeGetD s.store h).instanceId = uninitInstanceID
        · refine ⟨by simp [registerReplicatedObject, h0, hmax, hmem, initInstanceId, hin], ?_⟩
          refine ⟨by simp [registerReplicatedObject, h0, hmax, hmem, initInstanceId, hin], ?_⟩
          refine ⟨by simp [registerReplicatedObject, h0, hmax, hmem, initInstanceId, hin], ?_⟩
          refine ⟨by simp [registerReplicatedObject, h0, hmax, hmem, initInstanceId, hin], ?_⟩
          refine ⟨by simp [registerReplicatedObject, h0, hmax, hmem, initInstanceId, hin], ?_⟩
          intro _
          have hreg : registerReplicatedObject s h =
              ({ s with
                  buckets := addToBucket s.buckets (storeGetD s.store h).typeId h,
                  nextId := s.nextId + 1,
                  store := storeSet s.store h
                    { storeGetD s.store h with instanceId := s.nextId } }, none) := by
            simp [registerReplicatedObject, h0, hmax, hmem, initInstanceId, hin]
          rw [hreg]
          refine ⟨getBkt_addToBucket_self _ _ _, ?_, rfl, ?_, ?_, rfl⟩
          · intro t' ht'
            exact getBkt_addToBucket_ne _ _ _ _ ht'
          · exact storeGetD_storeSet_self _ _ _
          · intro h' hh'
            exact storeGetD_storeSet_ne _ _ _ _ hh'
        · simp [registerReplicatedObject, h0, hmax, hmem, initInstanceId, hin]

/-- C1 witness: at the concrete fresh engine `c1Engine` and handle `1`,
registration succeeds, the counter moves from 1 to 2, and handle `1` is
appended to the (previously empty) bucket of its type. -/
theorem C1_register_witness :
    (registerReplicatedObject c1Engine 1).2 = none ∧
    (registerReplicatedObject c1Engine 1).1.nextId = c1Engine.nextId + 1 ∧
    getBkt (registerReplicatedObject c1Engine 1).1.buckets
        (storeGetD c1Engine.store 1).typeId =
      getBkt c1Engine.buckets (storeGetD c1Engine.store 1).typeId ++ [1] := by
  have hc := C1_register_characterization c1Engine 1
  have hnone : (registerReplicatedObject c1Engine 1).2 = none := by decide
  have hsucc := hc.2.2.2.2.2 hnone
  exact ⟨hnone, hsucc.2.2.1, hsucc.1⟩

/-- C3 counterexample: a failed register is not always atomic.  At
`c3Engine`, registering handle `1` fails with `AlreadyInitialized`, yet
the registry afterwards differs from the registry before the call: the
counter was already post-incremented and `operator[]` left behind an empty
bucket for the handle's type. -/
theorem C3_counterexample_already_init_mutates :
    (registerReplicatedObject c3Engine 1).2 = some RegError.alreadyInit ∧
    (registerReplicatedObject c3Engine 1).1 ≠ c3Engine ∧
    (registerReplicatedObject c3Engine 1).1.nextId = c3Engine.nextId + 1 ∧
    (registerReplicatedObject c3Engine 1).1.buckets = [([0x41], [])] := by
  refine ⟨by decide, by decide, by decide, by decide⟩

/-- C3 amended: `registerReplicatedObject` is atomic on `NullHandle`,
`IdExhausted` and `AlreadyRegistered` failures — the whole registry state
afterwards equals the state before the call — and in particular with
`nextInstanceTag` forced to `max(uint32)` one more register fails with
`IdExhausted` and the registry is unchanged.  On an `AlreadyInitialized`
failure, however, the state afterwards is the prior state with the counter
incremented by one and an empty bucket created for the handle's type when
it was absent (no handle is inserted on any failure). -/
theorem C3_amended_atomicity (s : Engine) (h : HandleId) :
    ((registerReplicatedObject s h).2 = some RegError.nullHandle ∨
     (registerReplicatedObject s h).2 = some RegError.idExhausted ∨
     (registerReplicatedObject s h).2 = some RegError.alreadyRegistered →
       (registerReplicatedObject s h).1 = s) ∧
    ((registerReplicatedObject s h).2 = some RegError.alreadyInit →
       (registerReplicatedObject s h).1 =
         { s with
             buckets := ensureKey s.buckets (storeGetD s.store h).typeId,
             nextId := s.nextId + 1 }) ∧
    (h ≠ 0 → s.nextId = UINT32_MAX →
       (registerReplicatedObject s h).2 = some RegError.idExhausted ∧
       (registerReplicatedObject s h).1 = s) := by
  by_cases h0 : h = 0
  · simp [registerReplicatedObject, h0]
  · by_cases hmax : s.nextId = UINT32_MAX
    · simp [registerReplicatedObject, h0, hmax]
    · by_cases hmem : h ∈ getBkt s.buckets (storeGetD s.store h).typeId
      · have hkey :
            ensureKey s.buckets (storeGetD s.store h).typeId = s.buckets :=
          ensureKey_of_isSome (alookup_isSome_of_mem_getBkt hmem)
        simp [registerReplicatedObject, h0, hmax, hmem, hkey]
      · by_cases hin : (storeGetD s.store h).instanceId = uninitInstanceID
        · simp [registerReplicatedObject, h0, hmax, hmem, initInstanceId, hin]
        · simp [registerReplicatedObject, h0, hmax, hmem, initInstanceId, hin]

/-- C3 witness: the exhaustion scenario of the amended claim at the
concrete registry `c3MaxEngine`: one more register fails with
`IdExhausted` and the registry is unchanged. -/
theorem C3_amended_witness :
    (registerReplicatedObject c3MaxEngine 1).2 = some RegError.idExhausted ∧
    (registerReplicatedObject c3MaxEngine 1).1 = c3MaxEngine :=
  (C3_amended_atomicity c3MaxEngine 1).2.2 (by decide) (by decide)

/-- C5: one `update()` drains the transport completely, appends each
newly seen client id to the player set exactly once (known ids leave the
set unchanged — the old set stays as a prefix and no duplicate is ever
added), then sends exactly one message per player, each carrying the
serialized snapshot as its body.  Concretely, from an empty player set
with one buffered zero-body message for client 0, one update yields the
player set `[0]` and exactly one sent message, and a second update with no
further inbound yields exactly one more message to the same client. -/
theorem C5_update_drains_learns_broadcasts :
    ((update c5Engine c5Transport).1.players = [0] ∧
     (update c5Engine c5Transport).2.sent = [{ clientId := 0, body := [0x80] }] ∧
     (update (update c5Engine c5Transport).1 (update c5Engine c5Transport).2).2.sent =
       [{ clientId := 0, body := [0x80] }, { clientId := 0, body := [0x80] }]) ∧
    (∀ (s : Engine) (tp : MockTransport) (gs : List Byte),
       serializeRegistry s = some gs →
       (update s tp).2.inbox = [] ∧
       (update s tp).1.players = drainInbox tp.inbox s.players ∧
       (update s tp).2.sent = tp.sent ++ (drainInbox tp.inbox s.players).map
         (fun c => { clientId := c, body := gs })) ∧
    (∀ (inbox : List Message) (players : List ClientId),
       (∀ c, c ∈ drainInbox inbox players ↔
          c ∈ players ∨ c ∈ inbox.map Message.clientId) ∧
       (players.Nodup → (drainInbox inbox players).Nodup) ∧
       (∃ suffix, drainInbox inbox players = players ++ suffix)) := by
  refine ⟨⟨by decide, by decide, by decide⟩, ?_, ?_⟩
  · intro s tp gs hser
    rw [update_eq s tp gs hser]
    exact ⟨rfl, rfl, rfl⟩
  · intro inbox players
    exact ⟨mem_drainInbox inbox players, nodup_drainInbox inbox players,
      drainInbox_eq_append inbox players⟩

/-- C5 witness: the general broadcast clause applied at the concrete
engine and transport of the scenario, with the serialization hypothesis
discharged by evaluation. -/
theorem C5_update_witness :
    (update c5Engine c5Transport).2.sent =
      c5Transport.sent ++ (drainInbox c5Transport.inbox c5Engine.players).map
        (fun c => { clientId := c, body := [0x80] }) := by
  exact (C5_update_drains_learns_broadcasts.2.1 c5Engine c5Transport [0x80]
    (by decide)).2.2

/-- C2: registering a single `"TestObject"` with one boolean field `true`
into a freshly constructed registry succeeds, and `snapshot()` returns
exactly the 16 bytes
`81 aa 54 65 73 74 4f 62 6a 65 63 74 81 01 91 c3`. -/
theorem C2_single_bool_snapshot :
    (registerReplicatedObject c2Engine 1).2 = none ∧
    serializeRegistry (registerReplicatedObject c2Engine 1).1 =
      some [0x81, 0xaa, 0x54, 0x65, 0x73, 0x74, 0x4f, 0x62, 0x6a, 0x65,
            0x63, 0x74, 0x81, 0x01, 0x91, 0xc3] := by
  constructor
  · decide
  · decide

/-- C10: serializing a registry with no registered objects yields exactly
the single byte `0x80`, and a tick with an empty registry still sends that
one-byte snapshot to every player in the (drained) player set. -/
theorem C10_empty_registry_snapshot (n : InstanceId) (st : Store)
    (ps : List ClientId) (tp : MockTransport) :
    serializeRegistry { buckets := [], nextId := n, store := st, players := ps } =
      some [0x80] ∧
    update { buckets := [], nextId := n, store := st, players := ps } tp =
      ({ buckets := [], nextId := n, store := st,
         players := drainInbox tp.inbox ps },
       { inbox := [],
         sent := tp.sent ++ (drainInbox tp.inbox ps).map
           (fun c => { clientId := c, body := [0x80] }) }) := by
  have hser : serializeRegistry
      { buckets := [], nextId := n, store := st, players := ps } = some [0x80] := by
    simp [serializeRegistry, allHandles, serializeBuckets, packMapHeader]
  exact ⟨hser, by simp [update, hser]⟩

/-- C4: evaluating `initializeInstanceId` at the failing input.  Called
with `0` on a freshly constructed object it returns `true` (the claim and
the interface contract say such a call fails), and because the stored id
stays `0` a later call succeeds a second time, contradicting
"succeeds exactly once per object lifetime". -/
theorem C4_zero_argument_accepted :
    (initInstanceId { typeId := [], instanceId := 0, payload := [] } 0).1 = true ∧
    (initInstanceId
      ((initInstanceId { typeId := [], instanceId := 0, payload := [] } 0).2) 7).1
      = true := by
  decide

/-- C9: evaluating the writer loop at the failing input.  For the queued
message `{clientId = 0, body = [0x2a]}` with client `0` connected, the
drain hands the stream-send primitive the pointer `&body` to the vector
object itself (with length `body.size()`), which is not the pointer
`body.data()` to the element bytes the claim describes. -/
theorem C9_sends_vector_object_address :
    processSendDrain [0] [{ clientId := 0, body := [0x2a] }] =
      [(0, SendBuf.vectorObject [0x2a], 1)] ∧
    SendBuf.vectorObject [0x2a] ≠ SendBuf.vectorData [0x2a] := by
  decide

/-- C8 counterexample: no fixed capacity bounds the outbound queue — after
`cap + 1` sends the queue holds `cap + 1` messages. -/
theorem C8_counterexample_unbounded : ¬ OutboundBounded := by
  rintro ⟨cap, hcap⟩
  have h := hcap (List.replicate (cap + 1) { clientId := 0, body := [] })
  rw [applySends_outgoing] at h
  simp at h

/-- C8 amended: the transport's queues are FIFO queues guarded by mutexes,
but they are not bounded: `send` always enqueues at the back (so `n` sends
without a drain leave exactly the `n` messages, in call order), and
`recieve` pops the front in arrival order. -/
theorem C8_amended_fifo_unbounded :
    (∀ (q : TcpQueues) (ms : List Message),
       (applySends q ms).outgoingMessageQueue = q.outgoingMessageQueue ++ ms ∧
       (applySends q ms).incomingMessageQueue = q.incomingMessageQueue) ∧
    (∀ (inc out : List Message) (m : Message),
       tcpRecieve { incomingMessageQueue := m :: inc, outgoingMessageQueue := out } =
         (some m, { incomingMessageQueue := inc, outgoingMessageQueue := out })) ∧
    (∀ out : List Message,
       tcpRecieve { incomingMessageQueue := [], outgoingMessageQueue := out } =
         (none, { incomingMessageQueue := [], outgoingMessageQueue := out })) := by
  refine ⟨fun q ms => ⟨applySends_outgoing q ms, applySends_incoming q ms⟩, ?_, ?_⟩
  · intro inc out m
    rfl
  · intro out
    rfl

/-- C6 counterexample: the no-empty-bucket invariant is not preserved by
every operation sequence from the initial empty state.  From a fresh
engine with one fresh object, `register 1; unregister 1; register 1`
leaves the reachable state with the retained empty bucket
`([0x41], [])` (the third call throws `AlreadyInitialized` after
`operator[]` recreated the bucket). -/
theorem C6_counterexample_empty_bucket :
    c1Engine.buckets = [] ∧ c1Engine.nextId = 1 ∧
    (applyOps c1Engine [Op.reg 1, Op.unreg 1, Op.reg 1]).1.buckets =
      [([0x41], [])] ∧
    ¬ NoEmptyBuckets (applyOps c1Engine [Op.reg 1, Op.unreg 1, Op.reg 1]).1.buckets := by
  refine ⟨by decide, by decide, by decide, ?_⟩
  intro hne
  have hmem : (([0x41], []) : TypeId × List HandleId) ∈
      (applyOps c1Engine [Op.reg 1, Op.unreg 1, Op.reg 1]).1.buckets := by
    decide
  exact hne _ hmem rfl

/-- C6 amended: from the initial empty state, after every sequence of
register and unregister operations (including failed ones) every
registered handle has a non-zero instance tag, registered instance tags
are pairwise distinct, no handle appears twice in the registry, and
`nextInstanceTag` never decreases; the no-empty-bucket property
additionally holds provided no register call in the sequence failed with
`AlreadyInitialized` (such a failure can leave a retained empty bucket
behind). -/
theorem C6_amended_invariants (ops : List Op) (s₀ : Engine)
    (hb : s₀.buckets = []) (hn : s₀.nextId = 1) :
    (∀ x ∈ allHandles (applyOps s₀ ops).1.buckets,
       (storeGetD (applyOps s₀ ops).1.store x).instanceId ≠ 0) ∧
    (∀ x ∈ allHandles (applyOps s₀ ops).1.buckets,
       ∀ y ∈ allHandles (applyOps s₀ ops).1.buckets,
         (storeGetD (applyOps s₀ ops).1.store x).instanceId =
           (storeGetD (applyOps s₀ ops).1.store y).instanceId → x = y) ∧
    (allHandles (applyOps s₀ ops).1.buckets).Nodup ∧
    s₀.nextId ≤ (applyOps s₀ ops).1.nextId ∧
    (RegError.alreadyInit ∉ (applyOps s₀ ops).2 →
       NoEmptyBuckets (applyOps s₀ ops).1.buckets) := by
  have hcore : Core s₀ := by
    refine ⟨?_, ?_, ?_, ?_, ?_, ?_, ?_⟩ <;> simp [hb, hn, allHandles]
  obtain ⟨hc, hle, hne⟩ := applyOps_inv ops s₀ hcore
  obtain ⟨hk, hty, hpos, hlt, hnd, hinj, hnp⟩ := hc
  refine ⟨hpos, hinj, hnd, hle, ?_⟩
  intro herr
  refine hne herr ?_
  intro p hp
  rw [hb] at hp
  simp at hp

/-- C6 witness: the amended invariant applied to the concrete sequence
`[register 1]` from the fresh engine `c1Engine`, every hypothesis
discharged by evaluation. -/
theorem C6_amended_witness :
    NoEmptyBuckets (applyOps c1Engine [Op.reg 1]).1.buckets ∧
    c1Engine.nextId ≤ (applyOps c1Engine [Op.reg 1]).1.nextId := by
  have hres := C6_amended_invariants [Op.reg 1] c1Engine (by decide) (by decide)
  exact ⟨hres.2.2.2.2 (by decide), hres.2.2.2.1⟩

/-- C7 counterexample: the register/unregister round trip does not
preserve the snapshot bytes on every registry state.  The state `c7State`
is reachable (by `register 1; unregister 1; register 1` from a fresh
engine) and retains the empty bucket `([0x41], [])`; registering the fresh
handle `2` and unregistering it again drops that bucket, so the snapshot
shrinks from the four bytes `81 a1 41 80` to the single byte `80`. -/
theorem C7_counterexample_roundtrip_changes_snapshot :
    c7State = (applyOps c7Start [Op.reg 1, Op.unreg 1, Op.reg 1]).1 ∧
    (2 : HandleId) ≠ 0 ∧
    (2 : HandleId) ∉ allHandles c7State.buckets ∧
    (storeGetD c7State.store 2).instanceId = uninitInstanceID ∧
    serializeRegistry c7State = some [0x81, 0xa1, 0x41, 0x80] ∧
    serializeRegistry
      (unregisterReplicatedObject (registerReplicatedObject c7State 2).1 2) =
      some [0x80] ∧
    serializeRegistry
      (unregisterReplicatedObject (registerReplicatedObject c7State 2).1 2) ≠
      serializeRegistry c7State := by
  refine ⟨rfl, by decide, by decide, by decide, by decide, by decide, by decide⟩

/-- C7 amended: for every registry state whose bucket for the fresh
handle's `TypeTag` is absent or non-empty (true of every state reachable
without an `AlreadyInitialized` failure), and every fresh handle `h`
(non-null, unregistered, uninitialized), performing `register(h)` and then
`unregister(h)` restores the bucket map exactly, and the `snapshot()`
bytes equal those of the original state. -/
theorem C7_amended_roundtrip (s : Engine) (h : HandleId)
    (h0 : h ≠ 0)
    (hfresh : h ∉ allHandles s.buckets)
    (huninit : (storeGetD s.store h).instanceId = uninitInstanceID)
    (hbkt : alookup s.buckets (storeGetD s.store h).typeId ≠ some []) :
    (unregisterReplicatedObject (registerReplicatedObject s h).1 h).buckets =
      s.buckets ∧
    serializeRegistry
      (unregisterReplicatedObject (registerReplicatedObject s h).1 h) =
      serializeRegistry s := by
  have hmem : h ∉ getBkt s.buckets (storeGetD s.store h).typeId := fun hm =>
    hfresh (mem_allHandles_of_mem_getBkt hm)
  by_cases hmax : s.nextId = UINT32_MAX
  · have hr : registerReplicatedObject s h = (s, some RegError.idExhausted) := by
      simp [registerReplicatedObject, h0, hmax]
    rw [hr]
    have hrm := removeFromBuckets_of_not_mem hfresh hbkt
    constructor
    · exact hrm
    · show serializeRegistry
        { s with
            buckets :=
              removeFromBuckets s.buckets (storeGetD s.store h).typeId h } =
        serializeRegistry s
      rw [hrm]
  · have hr : registerReplicatedObject s h =
        ({ s with
            buckets := addToBucket s.buckets (storeGetD s.store h).typeId h,
            nextId := s.nextId + 1,
            store := storeSet s.store h
              { storeGetD s.store h with instanceId := s.nextId } },
         none) := by
      simp [registerReplicatedObject, h0, hmax, hmem, initInstanceId, huninit]
    rw [hr]
    have hback : removeFromBuckets
        (addToBucket s.buckets (storeGetD s.store h).typeId h)
        (storeGetD s.store h).typeId h = s.buckets :=
      removeFromBuckets_addToBucket hfresh hbkt
    have hbeq : (unregisterReplicatedObject
        { s with
            buckets := addToBucket s.buckets (storeGetD s.store h).typeId h,
            nextId := s.nextId + 1,
            store := storeSet s.store h
              { storeGetD s.store h with instanceId := s.nextId } } h).buckets =
        s.buckets := by
      show removeFromBuckets
        (addToBucket s.buckets (storeGetD s.store h).typeId h)
        (storeGetD (storeSet s.store h
          { storeGetD s.store h with instanceId := s.nextId }) h).typeId h =
        s.buckets
      rw [storeGetD_storeSet_self]
      exact hback
    refine ⟨hbeq, ?_⟩
    show serializeRegistry
      { s with
          buckets := removeFromBuckets
            (addToBucket s.buckets (storeGetD s.store h).typeId h)
            (storeGetD (storeSet s.store h
              { storeGetD s.store h with instanceId := s.nextId }) h).typeId h,
          nextId := s.nextId + 1,
          store := storeSet s.store h
            { storeGetD s.store h with instanceId := s.nextId } } =
      serializeRegistry s
    rw [storeGetD_storeSet_self, hback]
    have hagree : ∀ x ∈ allHandles s.buckets,
        storeGetD (storeSet s.store h
          { storeGetD s.store h with instanceId := s.nextId }) x =
        storeGetD s.store x := by
      intro x hx
      have hxh : x ≠ h := fun he => hfresh (he ▸ hx)
      exact storeGetD_storeSet_ne _ _ _ _ hxh
    by_cases h0m : (0 : HandleId) ∈ allHandles s.buckets
    · simp [serializeRegistry, h0m]
    · simp only [serializeRegistry, h0m, if_false]
      rw [serializeBuckets_congr hagree]

/-- C7 witness: the amended round trip at the concrete fresh engine
`c1Engine` and handle `1`, every hypothesis discharged by evaluation. -/
theorem C7_amended_witness :
    (unregisterReplicatedObject (registerReplicatedObject c1Engine 1).1 1).buckets =
      c1Engine.buckets ∧
    serializeRegistry
      (unregisterReplicatedObject (registerReplicatedObject c1Engine 1).1 1) =
      serializeRegistry c1Engine :=
  C7_amended_roundtrip c1Engine 1 (by decide) (by decide) (by decide) (by decide)

end MGServer
